import Mathlib

/-!
Verification of the agents-slackbot core against its specification.

The definitions below are a shallow embedding of the TypeScript source:
* `src/storage/ConversationMemory.ts` (thread memory store),
* `src/agents/orchestrator/Orchestrator.ts` (intent classification, dispatch, handoff),
* `src/agents/base/AgentBase.ts` (tool-execution loop),
* `src/agents/chronicle/article-review.ts` (quality scoring engine).

Machine numbers are modelled as `Nat`/`Int`/`Rat` (JS numbers used here stay
far from 2^53, and the scoring weights are exact decimal fractions), JS
exceptions as `Except`/`Option`, and JS `Map`s / records as association
lists.  Model calls and capability executors are opaque collaborators and
enter as function parameters.
-/

namespace Slackbot

/-! ## Data model shared across components (`src/agents/base/types.ts`) -/

/-- Message role, `'user' | 'assistant'` in the source. -/
inductive Role where
  | user
  | assistant
deriving DecidableEq, Repr

/-- `AgentRole` from `types.ts`. -/
inductive AgentRole where
  | scout
  | sage
  | chronicle
  | maven
  | orchestrator
deriving DecidableEq, Repr

/-- A single `Anthropic.MessageParam` as stored by the memory
(`{ role, content }` with string content). -/
structure MessageParam where
  role : Role
  content : String
deriving DecidableEq, Repr

/-! ## Thread Memory Store (`src/storage/ConversationMemory.ts`) -/

/-- `ConversationContext` from `ConversationMemory.ts`.  The `agentData`
values are opaque (`any` in the source) and modelled as strings. -/
structure ConversationContext where
  threadId : String
  channelId : String
  userId : String
  messages : List MessageParam
  currentAgent : Option AgentRole
  agentData : List (AgentRole × String)
  createdAt : Nat
  lastActivityAt : Nat
deriving DecidableEq, Repr

/-- The `conversations` map of `ConversationMemory`, as an association list
with unique keys (first match wins, like `Map.get`). -/
def Store := List (String × ConversationContext)

/-- `this.MAX_MESSAGES = 50`. -/
def MAX_MESSAGES : Nat := 50

/-- `Math.floor(this.MAX_MESSAGES * 0.8)` — the number of recent messages
kept by the trimming step. -/
def keepCount : Nat := (Int.floor ((MAX_MESSAGES : ℚ) * 0.8)).toNat

/-- `this.conversations.get(threadId)`. -/
def storeLookup : Store → String → Option ConversationContext
  | [], _ => none
  | (k, v) :: rest, tid => if k = tid then some v else storeLookup rest tid

/-- The trimming step of `ConversationMemory.addMessage`:
if the sequence exceeds `MAX_MESSAGES`, keep `messages[0]` and
`messages.slice(-keep)` (`slice(-n)` on a list of length `L` is
`drop (L - n)`, which is also correct when `n ≥ L` thanks to
truncated subtraction, matching JS clamping). -/
def trimMessages (msgs : List MessageParam) : List MessageParam :=
  if MAX_MESSAGES < msgs.length then
    match msgs with
    | [] => []
    | m0 :: _ => m0 :: msgs.drop (msgs.length - keepCount)
  else msgs

/-- The per-context mutation performed by `addMessage` once the context is
found: push the message, optionally update `currentAgent`, trim, and
refresh `lastActivityAt` (`Date.now()` is passed in as `now`). -/
def updateContext (ctx : ConversationContext) (role : Role) (content : String)
    (agent : Option AgentRole) (now : Nat) : ConversationContext :=
  { ctx with
    messages := trimMessages (ctx.messages ++ [⟨role, content⟩])
    currentAgent := match agent with
      | some a => some a
      | none => ctx.currentAgent
    lastActivityAt := now }

/-- In-place mutation of the context stored under `tid` (the `Map` holds at
most one entry per key; everything else is untouched). -/
def storeUpdate : Store → String → (ConversationContext → ConversationContext) → Store
  | [], _, _ => []
  | (k, v) :: rest, tid, f =>
      if k = tid then (k, f v) :: rest else (k, v) :: storeUpdate rest tid f

/-- `ConversationMemory.addMessage`: a no-op when the thread is absent
(`if (!context) return`), otherwise mutates that thread in place. -/
def addMessage (store : Store) (threadId : String) (role : Role)
    (content : String) (agent : Option AgentRole) (now : Nat) : Store :=
  match storeLookup store threadId with
  | none => store
  | some _ => storeUpdate store threadId fun ctx => updateContext ctx role content agent now

/-- `ConversationMemory.getMessages`: `context?.messages || []`. -/
def getMessages (store : Store) (threadId : String) : List MessageParam :=
  match storeLookup store threadId with
  | none => []
  | some ctx => ctx.messages

/-! ## String primitives shared by the dispatch and scoring embeddings -/

/-- Does `pat` occur as a contiguous run inside `l`?
(`String.prototype.includes`.) -/
def listContains : List Char → List Char → Bool
  | [], pat => pat.isEmpty
  | l@(_ :: tl), pat => pat.isPrefixOf l || listContains tl pat

/-- `haystack.includes(needle)` on strings. -/
def jsIncludes (s pat : String) : Bool :=
  listContains s.toList pat.toList

/-- `String.prototype.toLowerCase` (character-wise ASCII lowering, which is
what the source's lowercase keyword matching relies on). -/
def jsToLower (s : String) : String :=
  ⟨s.toList.map Char.toLower⟩

/-! ## Orchestrator (`src/agents/orchestrator/Orchestrator.ts`) -/

/-- `MessageParam.content` may be a string or an array of content blocks;
the classifier only acts on string content
(`typeof lastMessage.content !== 'string'`). -/
inductive MsgContent where
  | str (s : String)
  | blocks
deriving DecidableEq, Repr

/-- A chat message as seen by the orchestrator. -/
structure ChatMessage where
  role : Role
  content : MsgContent
deriving DecidableEq, Repr

/-- An opaque metadata value (`any` in `Record<string, any>`). -/
inductive MetaVal where
  | str (s : String)
  | bag (kvs : List (String × String))
  | undef
deriving DecidableEq, Repr

/-- `AgentContext` from `types.ts`. -/
structure AgentContext where
  userId : String
  threadId : String
  channelId : String
  messages : List ChatMessage
  previousAgent : Option AgentRole
  metadata : List (String × MetaVal)
deriving DecidableEq, Repr

/-- The `shouldHandoff` field of an `AgentResponse` (`to`, `reason`,
`context` in the source; `to` is a Lean keyword, hence quoted). -/
structure Handoff where
  «to» : AgentRole
  reason : String
  context : Option (List (String × String))
deriving DecidableEq, Repr

/-- `AgentResponse` from `types.ts`. -/
structure AgentResponse where
  text : String
  agent : AgentRole
  toolsUsed : List String
  shouldHandoff : Option Handoff
deriving DecidableEq, Repr

/-- An agent as the orchestrator consumes it: its (total) `handleRequest`.
`AgentBase.handleRequest` catches every exception internally, so totality
is faithful. -/
def Agent := AgentContext → AgentResponse

/-- `this.agents` — the orchestrator's agent table. -/
def AgentTable := List (AgentRole × Agent)

/-- `this.agents.get(role)`. -/
def lookupAgent : AgentTable → AgentRole → Option Agent
  | [], _ => none
  | (k, v) :: rest, r => if k = r then some v else lookupAgent rest r

/-- `matchesKeywords(text, keywords)`:
`keywords.some((keyword) => text.includes(keyword))`. -/
def matchesKeywords (text : String) (keywords : List String) : Bool :=
  keywords.any fun keyword => jsIncludes text keyword

/-- The ordered keyword rule sets of `classifyIntent`, one entry per
`if (this.matchesKeywords(...)) return ...` branch, in source order. -/
def keywordSets : List (AgentRole × List String) :=
  [(.scout, ["research", "find", "search", "who", "company", "prospect"]),
   (.sage, ["analyze", "compare", "strategy", "insight", "recommend", "should i"]),
   (.chronicle, ["article", "write", "news", "carescope", "publish", "cqc"]),
   (.maven, ["weather", "help", "settings", "hello", "hi", "thanks"])]

/-- The keyword fast path of `classifyIntent`: the first rule set whose
keywords match wins (the source's chain of `if` statements). -/
def ruleClassify (userMessage : String) : Option AgentRole :=
  (keywordSets.find? fun p => matchesKeywords userMessage p.2).map (·.1)

/-- `['scout', 'sage', 'chronicle', 'maven'].includes(classification)`
together with the cast to `AgentRole`. -/
def parseAgentRole (s : String) : Option AgentRole :=
  if s = "scout" then some .scout
  else if s = "sage" then some .sage
  else if s = "chronicle" then some .chronicle
  else if s = "maven" then some .maven
  else none

/-- `Orchestrator.classifyWithLLM` (the method): the pluggable fallback
classifier `llm` (the free `classifyWithLLM` function, an external model
call) either throws (`Except.error`) or returns a string; unknown strings
and exceptions both collapse to `'maven'`. -/
def classifyWithLLM (userMessage : String)
    (llm : String → Except String String) : AgentRole :=
  match llm userMessage with
  | .error _ => .maven
  | .ok classification => (parseAgentRole classification).getD .maven

/-- The last `user`-role message with string content, as selected by
`context.messages.filter((m) => m.role === 'user').pop()` plus the
`typeof` guard. -/
def lastUserUtterance (messages : List ChatMessage) : Option String :=
  match (messages.filter fun m => m.role = .user).getLast? with
  | none => none
  | some m =>
      match m.content with
      | .str s => some s
      | .blocks => none

/-- `Orchestrator.classifyIntent`. -/
def classifyIntent (messages : List ChatMessage)
    (llm : String → Except String String) : AgentRole :=
  match lastUserUtterance messages with
  | none => .maven
  | some s =>
      let userMessage := jsToLower s
      match ruleClassify userMessage with
      | some a => a
      | none => classifyWithLLM userMessage llm

/-- Record-override write (`{...m, k: v}`): the key appears once, with the
new value. -/
def setMeta (m : List (String × MetaVal)) (k : String) (v : MetaVal) :
    List (String × MetaVal) :=
  (m.filter fun p => p.1 ≠ k) ++ [(k, v)]

/-- The handoff context built inside `Orchestrator.handle`:
previous agent recorded, `handoffReason`/`handoffContext` merged into the
metadata. -/
def handoffContext (ctx : AgentContext) (targetAgent : AgentRole) (h : Handoff) :
    AgentContext :=
  { ctx with
    previousAgent := some targetAgent
    metadata :=
      setMeta (setMeta ctx.metadata "handoffReason" (.str h.reason))
        "handoffContext"
        (match h.context with
         | some b => .bag b
         | none => .undef) }

/-- `Orchestrator.handle`.  `none` models the unreachable crash of
`this.agents.get('maven')!` when even 'maven' is absent from the table;
with the constructor's table this never happens.  Note the handoff target's
response is returned as-is: its own `shouldHandoff` is never consulted, so
a chain is capped after one redirect. -/
def handle (agents : AgentTable) (ctx : AgentContext)
    (llm : String → Except String String) : Option AgentResponse :=
  let targetAgent := classifyIntent ctx.messages llm
  match lookupAgent agents targetAgent with
  | none => (lookupAgent agents .maven).map fun a => a ctx
  | some agent =>
      let response := agent ctx
      match response.shouldHandoff with
      | none => some response
      | some h =>
          match lookupAgent agents h.to with
          | some handoffAgent => some (handoffAgent (handoffContext ctx targetAgent h))
          | none => some response

/-! ## Agent dispatch loop (`src/agents/base/AgentBase.ts`) -/

/-- `Anthropic.ToolUseBlock` (the `input` JSON kept opaque as a string). -/
structure ToolUseBlock where
  id : String
  name : String
  input : String
deriving DecidableEq, Repr

/-- The content a tool evaluation produces: the executor's result, or the
`{ error: ... }` payload built when the executor throws or the tool is
unknown. -/
inductive ToolContent where
  | ok (value : String)
  | err (message : String)
deriving DecidableEq, Repr

/-- One entry of the `results` array of `executeTools`:
`{ tool_use_id, content }`. -/
structure ToolResultRec where
  tool_use_id : String
  content : ToolContent
deriving DecidableEq, Repr

/-- A `Tool` from `types.ts`; `execute` may throw (`Except.error` carries
`error.message`), results are opaque strings. -/
structure Tool where
  name : String
  description : String
  parameters : String
  execute : String → AgentContext → Except String String

/-- `this.tools` — the agent's registered tools, keyed by name. -/
def ToolMap := List (String × Tool)

/-- `this.tools.get(name)`. -/
def lookupTool : ToolMap → String → Option Tool
  | [], _ => none
  | (k, v) :: rest, n => if k = n then some v else lookupTool rest n

/-- `AgentBase.executeTools`: one result per call, in request order; a
missing tool or a throwing executor becomes an error payload, never a
raised exception. -/
def executeTools (tools : ToolMap) (ctx : AgentContext) :
    List ToolUseBlock → List ToolResultRec
  | [] => []
  | tc :: rest =>
      match lookupTool tools tc.name with
      | none =>
          ⟨tc.id, .err ("Tool " ++ tc.name ++ " not found")⟩ :: executeTools tools ctx rest
      | some tool =>
          match tool.execute tc.input ctx with
          | .ok r => ⟨tc.id, .ok r⟩ :: executeTools tools ctx rest
          | .error e => ⟨tc.id, .err e⟩ :: executeTools tools ctx rest

/-- A content block of a model response (`response.content`).  In the
follow-up request the tool results are sent back as `tool_result` blocks
(their JSON serialization kept symbolic). -/
inductive ContentBlock where
  | text (s : String)
  | toolUse (t : ToolUseBlock)
  | toolResult (id : String) (content : ToolContent)
deriving DecidableEq, Repr

/-- The message list sent to the model: plain chat messages, or messages
whose content is an array of blocks. -/
inductive OutMessage where
  | chat (m : ChatMessage)
  | withBlocks (role : Role) (blocks : List ContentBlock)
deriving DecidableEq, Repr

/-- Collecting `finalText` from the text blocks of a response. -/
def extractText (blocks : List ContentBlock) : String :=
  blocks.foldl
    (fun acc b =>
      match b with
      | .text s => acc ++ s
      | _ => acc)
    ""

/-- Collecting the `tool_use` blocks of a response, in order. -/
def extractToolCalls (blocks : List ContentBlock) : List ToolUseBlock :=
  blocks.foldr
    (fun b acc =>
      match b with
      | .toolUse t => t :: acc
      | _ => acc)
    []

/-- The follow-up message list of `handleRequest`: the original messages,
the assistant's tool-call proposal, and one user message carrying all tool
results. -/
def followUpMessages (ctx : AgentContext) (responseContent : List ContentBlock)
    (toolResults : List ToolResultRec) : List OutMessage :=
  (ctx.messages.map .chat) ++
    [.withBlocks .assistant responseContent,
     .withBlocks .user (toolResults.map fun r => .toolResult r.tool_use_id r.content)]

/-- Whitespace for the JS `\s` class / `trim()` (ASCII part). -/
def isJsWs (c : Char) : Bool :=
  c = ' ' || c = '\t' || c = '\n' || c = '\r' || c = '\x0b' || c = '\x0c'

/-- Splits off everything before the first occurrence of `c`, requiring no
newline in between (a lazy `(.*?)` has `.` not matching newlines). -/
def splitAtCharNoNl : List Char → Char → Option (List Char × List Char)
  | [], _ => none
  | x :: xs, c =>
      if x = c then some ([], xs)
      else if x = '\n' then none
      else (splitAtCharNoNl xs c).map fun p => (x :: p.1, p.2)

/-- The text part of a markdown link: everything up to the first `](`,
with no newline inside (`\[(.*?)\]\(`). -/
def linkTextSplit : List Char → Option (List Char × List Char)
  | [] => none
  | ']' :: '(' :: rest => some ([], rest)
  | '\n' :: _ => none
  | x :: xs => (linkTextSplit xs).map fun p => (x :: p.1, p.2)

/-- One pass of `replace(/\[(.*?)\]\((.*?)\)/g, '<$2|$1>')`: each markdown
link becomes a Slack link, scanning left to right, non-overlapping. -/
def convertLinks (fuel : Nat) (l : List Char) : List Char :=
  match fuel, l with
  | 0, l => l
  | _ + 1, [] => []
  | f + 1, '[' :: rest =>
      match linkTextSplit rest with
      | some (txt, rest2) =>
          match splitAtCharNoNl rest2 ')' with
          | some (url, rest3) =>
              '<' :: (url ++ '|' :: (txt ++ '>' :: convertLinks f rest3))
          | none => '[' :: convertLinks f rest
      | none => '[' :: convertLinks f rest
  | f + 1, x :: xs => x :: convertLinks f xs

/-- `replace(/\*\*/g, '*')`. -/
def replaceStars (fuel : Nat) (l : List Char) : List Char :=
  match fuel, l with
  | 0, l => l
  | _ + 1, [] => []
  | f + 1, '*' :: '*' :: rest => '*' :: replaceStars f rest
  | f + 1, x :: xs => x :: replaceStars f xs

/-- `String.prototype.trim`. -/
def jsTrim (l : List Char) : List Char :=
  ((l.dropWhile isJsWs).reverse.dropWhile isJsWs).reverse

/-- `AgentBase.formatForSlack`: link conversion, `**` → `*`, trim. -/
def formatForSlack (text : String) : String :=
  let l := text.toList
  let l := convertLinks (l.length + 1) l
  let l := replaceStars (l.length + 1) l
  ⟨jsTrim l⟩

/-- `AgentBase.handleRequest`.  The model client is the opaque
collaborator `client` (both `messages.create` calls); `Except.error`
models a thrown transport/model error, handled by the surrounding
`try/catch` which returns `errorMessage` (the agent's
`getErrorMessage`). -/
def handleRequest (role : AgentRole) (errorMessage : String)
    (client : List OutMessage → Except String (List ContentBlock))
    (tools : ToolMap) (ctx : AgentContext) : AgentResponse :=
  match client (ctx.messages.map .chat) with
  | .error _ => ⟨errorMessage, role, [], none⟩
  | .ok content =>
      let finalText := extractText content
      let toolCalls := extractToolCalls content
      if toolCalls.isEmpty then
        ⟨formatForSlack finalText, role, [], none⟩
      else
        let toolResults := executeTools tools ctx toolCalls
        let toolsUsed := toolCalls.map (·.name)
        match client (followUpMessages ctx content toolResults) with
        | .error _ => ⟨errorMessage, role, toolsUsed, none⟩
        | .ok content2 =>
            ⟨formatForSlack (finalText ++ extractText content2), role, toolsUsed, none⟩

/-! ## Quality Scoring Engine (`src/agents/chronicle/article-review.ts`)

The engine is regex-driven; each regex of the source is embedded as an
explicit scanner with JS matching semantics (leftmost, non-overlapping,
greedy/lazy as the original quantifiers dictate, `.` not matching
newlines, `/i` as ASCII case folding).  Scanners that re-scan from a
shorter suffix after a multi-character skip take an explicit fuel
argument (`length + 1` always suffices: every step consumes at least one
character). -/

/-- A literal pattern: its text and whether it carries the `/i` flag. -/
structure LitPat where
  text : String
  ci : Bool

/-- ASCII case folding used for `/i` patterns. -/
def foldCase (l : List Char) : List Char := l.map Char.toLower

/-- Non-overlapping occurrence count of a literal pattern
(`article.match(/lit/g)` length), leftmost first, each match consuming
its own length. -/
def countLitAux (fuel : Nat) (hay pat : List Char) : Nat :=
  match fuel with
  | 0 => 0
  | f + 1 =>
      match hay with
      | [] => 0
      | c :: tl =>
          if pat.isPrefixOf (c :: tl) then 1 + countLitAux f ((c :: tl).drop pat.length) pat
          else countLitAux f tl pat

/-- Occurrence count of a literal pattern in an article. -/
def countLit (s : String) (p : LitPat) : Nat :=
  let hay := if p.ci then foldCase s.toList else s.toList
  let pat := if p.ci then foldCase p.text.toList else p.text.toList
  countLitAux (hay.length + 1) hay pat

/-- The first matched text of a literal pattern (`matches[0]`), in the
article's original casing. -/
def firstLitAux (fuel : Nat) (orig hay pat : List Char) : Option (List Char) :=
  match fuel with
  | 0 => none
  | f + 1 =>
      match orig, hay with
      | oc :: otl, hc :: htl =>
          if pat.isPrefixOf (hc :: htl) then some ((oc :: otl).take pat.length)
          else firstLitAux f otl htl pat
      | _, _ => none

/-- `matches[0]` for a literal pattern. -/
def firstLit (s : String) (p : LitPat) : Option String :=
  let hay := if p.ci then foldCase s.toList else s.toList
  let pat := if p.ci then foldCase p.text.toList else p.text.toList
  (firstLitAux (hay.length + 1) s.toList hay pat).map fun l => (⟨l⟩ : String)

/-- First alternative (in declaration order) matching at this position; its
length. -/
def matchAltAt (hay : List Char) : List (List Char) → Option Nat
  | [] => none
  | alt :: rest => if alt.isPrefixOf hay then some alt.length else matchAltAt hay rest

/-- Match count of an alternation regex `/(a|b|...)/gi`. -/
def countAltsAux (fuel : Nat) (hay : List Char) (alts : List (List Char)) : Nat :=
  match fuel with
  | 0 => 0
  | f + 1 =>
      match hay with
      | [] => 0
      | c :: tl =>
          match matchAltAt (c :: tl) alts with
          | some n => 1 + countAltsAux f ((c :: tl).drop n) alts
          | none => countAltsAux f tl alts

/-- Match count of a case-insensitive alternation of literals. -/
def countAlts (s : String) (alts : List String) : Nat :=
  let hay := foldCase s.toList
  countAltsAux (hay.length + 1) hay (alts.map fun a => foldCase a.toList)

/-- JS `\w` (`[A-Za-z0-9_]`). -/
def isWordChar (c : Char) : Bool := c.isAlphanum || c = '_'

/-- `\b` after a match: next character (if any) is not a word character. -/
def wordBoundaryAfter : List Char → Bool
  | [] => true
  | d :: _ => !isWordChar d

/-- Match count of `/\bword\b/gi`: the literal must sit between
non-word-character boundaries; scanning is leftmost, non-overlapping. -/
def countWordAux (fuel : Nat) (prev : Option Char) (hay pat : List Char) : Nat :=
  match fuel with
  | 0 => 0
  | f + 1 =>
      match hay with
      | [] => 0
      | c :: tl =>
          let bOk := match prev with
            | none => true
            | some p => !isWordChar p
          if bOk && pat.isPrefixOf (c :: tl)
              && wordBoundaryAfter ((c :: tl).drop pat.length) then
            1 + countWordAux f pat.getLast? ((c :: tl).drop pat.length) pat
          else countWordAux f (some c) tl pat

/-- Occurrence count of `/\bword\b/gi` in the article. -/
def countWord (s : String) (w : String) : Nat :=
  countWordAux (s.toList.length + 1) none (foldCase s.toList) (foldCase w.toList)

/-- `matches[0]` of `/\bword\b/gi`, in original casing. -/
def firstWordAux (fuel : Nat) (prev : Option Char) (orig hay pat : List Char) :
    Option (List Char) :=
  match fuel with
  | 0 => none
  | f + 1 =>
      match orig, hay with
      | oc :: otl, hc :: htl =>
          let bOk := match prev with
            | none => true
            | some p => !isWordChar p
          if bOk && pat.isPrefixOf (hc :: htl)
              && wordBoundaryAfter ((hc :: htl).drop pat.length) then
            some ((oc :: otl).take pat.length)
          else firstWordAux f (some hc) otl htl pat
      | _, _ => none

/-- First `/\bword\b/gi` match, original casing. -/
def firstWord (s : String) (w : String) : Option String :=
  (firstWordAux (s.toList.length + 1) none s.toList (foldCase s.toList)
      (foldCase w.toList)).map fun l => (⟨l⟩ : String)

/-- Match count of `/\d+%/g`. -/
def countNumPercentAux (fuel : Nat) (l : List Char) : Nat :=
  match fuel with
  | 0 => 0
  | f + 1 =>
      match l with
      | [] => 0
      | c :: tl =>
          if c.isDigit then
            let run := (c :: tl).takeWhile Char.isDigit
            match (c :: tl).drop run.length with
            | '%' :: r2 => 1 + countNumPercentAux f r2
            | _ => countNumPercentAux f tl
          else countNumPercentAux f tl

/-- Match count of `/£[\d,]+/g`. -/
def countPoundAux (fuel : Nat) (l : List Char) : Nat :=
  match fuel with
  | 0 => 0
  | f + 1 =>
      match l with
      | [] => 0
      | c :: tl =>
          if c = '£' then
            let run := tl.takeWhile fun d => d.isDigit || d = ','
            if 0 < run.length then 1 + countPoundAux f (tl.drop run.length)
            else countPoundAux f tl
          else countPoundAux f tl

/-- Total length matched by the greedy `(,\d{3})+` groups. -/
def groupsLen : List Char → Nat
  | ',' :: a :: b :: c :: rest =>
      if a.isDigit && b.isDigit && c.isDigit then 4 + groupsLen rest else 0
  | _ => 0

/-- One attempt of `/\d{1,3}(,\d{3})+/` at the current position (greedy
`{1,3}` tries 3, 2, then 1 digits); returns the consumed length. -/
def matchBigAt (l : List Char) : Option Nat :=
  let d := (l.takeWhile Char.isDigit).length
  let tryK : Nat → Option Nat := fun k =>
    if k ≤ d then
      let g := groupsLen (l.drop k)
      if 0 < g then some (k + g) else none
    else none
  ((tryK 3).orElse fun _ => (tryK 2).orElse fun _ => tryK 1)

/-- Match count of `/\d{1,3}(,\d{3})+/g`. -/
def countBigNumAux (fuel : Nat) (l : List Char) : Nat :=
  match fuel with
  | 0 => 0
  | f + 1 =>
      match l with
      | [] => 0
      | c :: tl =>
          match matchBigAt (c :: tl) with
          | some n => 1 + countBigNumAux f ((c :: tl).drop n)
          | none => countBigNumAux f tl

/-- Match count of `/\d+\.\d+/g`. -/
def countDecimalAux (fuel : Nat) (l : List Char) : Nat :=
  match fuel with
  | 0 => 0
  | f + 1 =>
      match l with
      | [] => 0
      | c :: tl =>
          if c.isDigit then
            let r1 := (c :: tl).takeWhile Char.isDigit
            match (c :: tl).drop r1.length with
            | '.' :: r2 =>
                let r3 := r2.takeWhile Char.isDigit
                if 0 < r3.length then 1 + countDecimalAux f (r2.drop r3.length)
                else countDecimalAux f tl
            | _ => countDecimalAux f tl
          else countDecimalAux f tl

/-- The matched texts of `/\[\d+\]/g`, in order. -/
def bracketMatchesAux (fuel : Nat) (l : List Char) : List (List Char) :=
  match fuel with
  | 0 => []
  | f + 1 =>
      match l with
      | [] => []
      | '[' :: tl =>
          let ds := tl.takeWhile Char.isDigit
          if 0 < ds.length then
            match tl.drop ds.length with
            | ']' :: r2 => ('[' :: (ds ++ [']'])) :: bracketMatchesAux f r2
            | _ => bracketMatchesAux f tl
          else bracketMatchesAux f tl
      | _ :: tl => bracketMatchesAux f tl

/-- All `[n]`-style citations of the article. -/
def bracketCitationList (s : String) : List String :=
  (bracketMatchesAux (s.toList.length + 1) s.toList).map fun l => (⟨l⟩ : String)

/-- Does `p` hold of some suffix?  (Position-by-position `.test`.) -/
def existsSuffix (p : List Char → Bool) : List Char → Bool
  | [] => p []
  | c :: tl => p (c :: tl) || existsSuffix p tl

/-- `/\\\\[*_]/` at the current position: two backslashes then `*` or `_`. -/
def escapedMdAt : List Char → Bool
  | '\\' :: '\\' :: c :: _ => c = '*' || c = '_'
  | _ => false

/-- `/\n\s*\\[*]/` at the current position: after the newline, greedy `\s*`
reduces to "first non-whitespace characters are `\*`". -/
def brokenBulletAt : List Char → Bool
  | '\n' :: rest =>
      match rest.dropWhile isJsWs with
      | '\\' :: '*' :: _ => true
      | _ => false
  | _ => false

/-- `/\*\*\s+\*\*/` at the current position. -/
def emptyBoldAt : List Char → Bool
  | '*' :: '*' :: rest =>
      let w := rest.takeWhile isJsWs
      0 < w.length &&
        (match rest.drop w.length with
         | '*' :: '*' :: _ => true
         | _ => false)
  | _ => false

/-- `/##\s*$/` at the current position (`$` is end of input; no `/m`). -/
def emptyHeadingAt : List Char → Bool
  | '#' :: '#' :: rest => rest.all isJsWs
  | _ => false

/-- `/\n#+[^\s]/` at the current position (backtracking `#+` collapses to:
a `#` after a newline followed by any non-whitespace character). -/
def headingNoSpaceAt : List Char → Bool
  | '\n' :: '#' :: c :: _ => !isJsWs c
  | _ => false

/-- Splits around the first occurrence of `pat`: `(before, after)`. -/
def splitAtLit (fuel : Nat) (l pat : List Char) : Option (List Char × List Char) :=
  match fuel with
  | 0 => none
  | f + 1 =>
      match l with
      | [] => if pat.isEmpty then some ([], []) else none
      | c :: tl =>
          if pat.isPrefixOf (c :: tl) then some ([], (c :: tl).drop pat.length)
          else (splitAtLit f tl pat).map fun p => (c :: p.1, p.2)

/-- Splits around the first occurrence of a character. -/
def splitAtChar : List Char → Char → Option (List Char × List Char)
  | [], _ => none
  | c :: tl, ch =>
      if c = ch then some ([], tl)
      else (splitAtChar tl ch).map fun p => (c :: p.1, p.2)

/-- The span matched by `/Key Data Summary[\s\S]*?\|[\s\S]*?\|/` (lazy: up
to the second `|` after the first `Key Data Summary`; if fewer than two
bars follow the first occurrence, none follow any later one either). -/
def keyDataSpan (article : List Char) : Option (List Char) :=
  match splitAtLit (article.length + 1) article "Key Data Summary".toList with
  | none => none
  | some (_, after) =>
      match splitAtChar after '|' with
      | none => none
      | some (b1, a1) =>
          match splitAtChar a1 '|' with
          | none => none
          | some (b2, _) =>
              some ("Key Data Summary".toList ++ b1 ++ '|' :: (b2 ++ ['|']))

/-- First option that succeeds along a list of candidates. -/
def firstSome {α : Type} : List Nat → (Nat → Option α) → Option α
  | [], _ => none
  | j :: rest, f =>
      match f j with
      | some r => some r
      | none => firstSome rest f

/-- Indices of `'\n'` within the run, in descending order (the greedy
`\s*` backtracks from the last newline towards the first). -/
def nlIdxDesc (run : List Char) : List Nat :=
  ((List.range run.length).filter fun j => run.getD j ' ' = '\n').reverse

/-- The capture group of the anchored frontmatter regex
(caret, `---`, `\s*`, `\n`, lazy capture, `\n---`): the frontmatter body
between the opening `---` line and the next `\n---`. -/
def frontmatter (article : List Char) : Option (List Char) :=
  if "---".toList.isPrefixOf article then
    let rest := article.drop 3
    let run := rest.takeWhile isJsWs
    firstSome (nlIdxDesc run) fun j =>
      let body := rest.drop (j + 1)
      (splitAtLit (body.length + 1) body "\n---".toList).map fun p => p.1
  else none

/-- Number of maximal whitespace runs; `article.split(/\s+/).length` is
this plus one. -/
def wsRunsAux (inRun : Bool) : List Char → Nat
  | [] => 0
  | c :: tl =>
      if isJsWs c then (if inRun then 0 else 1) + wsRunsAux true tl
      else wsRunsAux false tl

/-- `article.split(/\s+/).length`. -/
def jsWordCount (s : String) : Nat := 1 + wsRunsAux false s.toList

/-- Issue severity. -/
inductive Severity where
  | critical
  | major
  | minor
deriving DecidableEq, Repr

/-- `QualityIssue` from `article-review.ts`. -/
structure QualityIssue where
  severity : Severity
  category : String
  description : String
  «example» : Option String
  suggestion : String
deriving DecidableEq, Repr

/-- The `breakdown` record of a `QualityScore`. -/
structure QualityBreakdown where
  dataQuality : Nat
  sourceAttribution : Nat
  formatting : Nat
  depth : Nat
  actionability : Nat
  britishEnglish : Nat
deriving DecidableEq, Repr

/-- `QualityScore` from `article-review.ts`. -/
structure QualityScore where
  overall : ℤ
  breakdown : QualityBreakdown
  issues : List QualityIssue
  passesThreshold : Bool
deriving DecidableEq, Repr

/-- `QUALITY_THRESHOLD = 70`. -/
def QUALITY_THRESHOLD : ℤ := 70

/-- `placeholderPatterns`, in source order (all are literals; `gi` where
the source has it). -/
def placeholderPatterns : List LitPat :=
  [⟨"to be confirmed", true⟩, ⟨"TBC", false⟩, ⟨"TBD", false⟩, ⟨"[insert", true⟩,
   ⟨"[add", true⟩, ⟨"N/A", false⟩, ⟨"data unavailable", true⟩,
   ⟨"figures pending", true⟩, ⟨"awaiting data", true⟩, ⟨"XX%", false⟩,
   ⟨"X,XXX", false⟩, ⟨"$X", false⟩, ⟨"£X", false⟩, ⟨"[TODO]", true⟩,
   ⟨"[PLACEHOLDER]", true⟩]

/-- Total number of placeholder-token matches. -/
def placeholderCount (a : String) : Nat :=
  (placeholderPatterns.map fun p => countLit a p).sum

/-- One issue per placeholder pattern with at least one match. -/
def placeholderIssues (a : String) : List QualityIssue :=
  placeholderPatterns.filterMap fun p =>
    if 0 < countLit a p then
      some ⟨.critical, "Data Quality",
        "Found placeholder data: \"" ++ ((firstLit a p).getD "") ++ "\"",
        firstLit a p,
        "Replace with actual figures from research sources, or remove the section if data unavailable"⟩
    else none

/-- Penalty of the Key Data Summary check. -/
def keyDataPenalty (a : String) : Nat :=
  match keyDataSpan a.toList with
  | some span => if span.any Char.isDigit then 0 else 20
  | none => 15

/-- Issues of the Key Data Summary check. -/
def keyDataIssues (a : String) : List QualityIssue :=
  match keyDataSpan a.toList with
  | some span =>
      if span.any Char.isDigit then []
      else
        [⟨.critical, "Data Quality", "Key Data Summary table lacks specific numbers", none,
          "Include at least 3 concrete statistics with actual figures (e.g., \x27£12.50/hour\x27, \x27152,000 vacancies\x27, \x278.3% increase\x27)"⟩]
  | none =>
      [⟨.major, "Data Quality", "Missing Key Data Summary table", none,
        "Add a Key Data Summary section with a markdown table showing 3+ key statistics"⟩]

/-- `statCount`: matches of the four concrete-statistic regexes. -/
def statCount (a : String) : Nat :=
  countNumPercentAux (a.toList.length + 1) a.toList
    + countPoundAux (a.toList.length + 1) a.toList
    + countBigNumAux (a.toList.length + 1) a.toList
    + countDecimalAux (a.toList.length + 1) a.toList

/-- Accumulated Data Quality penalty. -/
def dataQualityPenalty (a : String) : Nat :=
  15 * placeholderCount a + keyDataPenalty a + (if statCount a < 5 then 15 else 0)

/-- The `dataQuality` dimension: 100 minus the accumulated penalties,
clamped at 0 at the end (`Math.max(0, ...)`). -/
def dataQualityScore (a : String) : Nat :=
  (100 - (dataQualityPenalty a : ℤ)).toNat

/-- All Data Quality issues, in source push order. -/
def dataQualityIssues (a : String) : List QualityIssue :=
  placeholderIssues a ++ keyDataIssues a ++
    (if statCount a < 5 then
      [⟨.major, "Data Quality",
        "Only " ++ toString (statCount a)
          ++ " specific statistics found (minimum 5 recommended)", none,
        "Add more concrete data points from your research sources"⟩]
    else [])

/-- The alternation of `/according to|reported by|.../gi`. -/
def inlineCitationAlts : List String :=
  ["according to", "reported by", "data from", "states that", "found that",
   "published by", "research by", "analysis by"]

/-- Count of natural inline citations. -/
def inlineCitationCount (a : String) : Nat := countAlts a inlineCitationAlts

/-- Accumulated Source Attribution penalty. -/
def sourceAttributionPenalty (a : String) : Nat :=
  (if inlineCitationCount a < 3 then 20 else 0)
    + (if 3 < (bracketCitationList a).length then 15 else 0)
    + (if jsIncludes a "## Sources" then 0 else 25)

/-- The `sourceAttribution` dimension. -/
def sourceAttributionScore (a : String) : Nat :=
  (100 - (sourceAttributionPenalty a : ℤ)).toNat

/-- All Source Attribution issues, in source push order. -/
def sourceAttributionIssues (a : String) : List QualityIssue :=
  (if inlineCitationCount a < 3 then
    [⟨.major, "Source Attribution", "Insufficient inline source attribution", none,
      "Cite sources naturally in the text (e.g., \x27According to Skills for Care...\x27, \x27CQC data shows...\x27)"⟩]
  else []) ++
  (if 3 < (bracketCitationList a).length then
    [⟨.major, "Source Attribution",
      "Using academic-style bracket citations [1], [2] instead of natural attribution",
      some (String.intercalate ", " ((bracketCitationList a).take 3)),
      "Replace [1] style citations with natural attribution: \x27According to the CQC...\x27 or \x27Skills for Care reports that...\x27"⟩]
  else []) ++
  (if jsIncludes a "## Sources" then []
  else
    [⟨.critical, "Source Attribution", "Missing Sources section", none,
      "Add a \x27## Sources\x27 section at the end with categorised references"⟩])

/-- The five broken-markdown checks, with the names used in their issue
descriptions, in source order. -/
def brokenFound (a : String) : List String :=
  ([(existsSuffix escapedMdAt a.toList, "escaped markdown characters"),
    (existsSuffix brokenBulletAt a.toList, "broken bullet points"),
    (existsSuffix emptyBoldAt a.toList, "empty bold text"),
    (existsSuffix emptyHeadingAt a.toList, "empty headings"),
    (existsSuffix headingNoSpaceAt a.toList, "headings without space after #")]
    : List (Bool × String)).filterMap fun p => if p.1 then some p.2 else none

/-- `requiredFields` of the frontmatter check. -/
def requiredFields : List String :=
  ["title", "slug", "excerpt", "publishedAt", "category", "readTime", "author", "tags"]

/-- Frontmatter fields whose `name:` key is absent from the frontmatter. -/
def missingFields (fm : List Char) : List String :=
  requiredFields.filter fun f => !listContains fm (f ++ ":").toList

/-- Penalty of the frontmatter checks. -/
def frontmatterPenalty (a : String) : Nat :=
  if !"---".toList.isPrefixOf a.toList then 25
  else
    match frontmatter a.toList with
    | some fm => 5 * (missingFields fm).length
    | none => 0

/-- Issues of the frontmatter checks. -/
def frontmatterIssues (a : String) : List QualityIssue :=
  if !"---".toList.isPrefixOf a.toList then
    [⟨.critical, "Formatting", "Missing frontmatter", none,
      "Article must start with --- frontmatter block containing title, slug, excerpt, publishedAt, category, readTime, author, tags"⟩]
  else
    match frontmatter a.toList with
    | some fm =>
        if (missingFields fm).isEmpty then []
        else
          [⟨.major, "Formatting",
            "Missing frontmatter fields: " ++ String.intercalate ", " (missingFields fm),
            none, "Add all required frontmatter fields"⟩]
    | none => []

/-- Accumulated Formatting penalty. -/
def formattingPenalty (a : String) : Nat :=
  15 * (brokenFound a).length + frontmatterPenalty a

/-- The `formatting` dimension. -/
def formattingScore (a : String) : Nat :=
  (100 - (formattingPenalty a : ℤ)).toNat

/-- All Formatting issues, in source push order. -/
def formattingIssues (a : String) : List QualityIssue :=
  ((brokenFound a).map fun n =>
    ⟨.major, "Formatting", "Found " ++ n, none,
      "Fix markdown formatting - use proper * for bullets, ** for bold"⟩)
    ++ frontmatterIssues a

/-- `fillerPhrases` (each its own `gi` regex; counts are summed). -/
def fillerPhrases : List String :=
  ["it is important to", "it is essential to", "in today\x27s world",
   "in this day and age", "going forward", "at the end of the day",
   "when it comes to", "there is no doubt that", "it goes without saying",
   "needless to say", "as we all know"]

/-- Total filler-phrase count. -/
def fillerCount (a : String) : Nat :=
  (fillerPhrases.map fun p => countLit a ⟨p, true⟩).sum

/-- `analysisIndicators`. -/
def analysisIndicators : List String :=
  ["this suggests", "this indicates", "the implication", "this means that",
   "compared to", "in contrast", "however", "despite", "although", "while",
   "consequently", "as a result"]

/-- Total analytical-connective count. -/
def analysisCount (a : String) : Nat :=
  (analysisIndicators.map fun p => countLit a ⟨p, true⟩).sum

/-- Accumulated Depth penalty (the filler penalty is scaled but capped:
`10 * Math.min(fillerCount - 3, 5)`). -/
def depthPenalty (a : String) : Nat :=
  (if 3 < fillerCount a then 10 * min (fillerCount a - 3) 5 else 0)
    + (if analysisCount a < 5 then 15 else 0)

/-- The `depth` dimension. -/
def depthScore (a : String) : Nat :=
  (100 - (depthPenalty a : ℤ)).toNat

/-- All Depth issues, in source push order. -/
def depthIssues (a : String) : List QualityIssue :=
  (if 3 < fillerCount a then
    [⟨.minor, "Depth",
      "Found " ++ toString (fillerCount a) ++ " filler phrases that add no value", none,
      "Replace generic phrases with specific analysis and insights"⟩]
  else []) ++
  (if analysisCount a < 5 then
    [⟨.major, "Depth", "Article lacks analytical depth", none,
      "Add more analysis: compare data, explain implications, discuss what the findings mean for care workers"⟩]
  else [])

/-- `actionablePatterns`. -/
def actionablePatterns : List String :=
  ["care providers should", "care workers can", "this means", "the key takeaway",
   "in practice", "practical", "steps to", "how to", "what this means for",
   "implications for"]

/-- Total practical-takeaway count. -/
def actionableCount (a : String) : Nat :=
  (actionablePatterns.map fun p => countLit a ⟨p, true⟩).sum

/-- Accumulated Actionability penalty. -/
def actionabilityPenalty (a : String) : Nat :=
  (if jsWordCount a < 600 then 20 else 0) + (if actionableCount a < 2 then 15 else 0)

/-- The `actionability` dimension. -/
def actionabilityScore (a : String) : Nat :=
  (100 - (actionabilityPenalty a : ℤ)).toNat

/-- All Actionability issues, in source push order. -/
def actionabilityIssues (a : String) : List QualityIssue :=
  (if jsWordCount a < 600 then
    [⟨.major, "Actionability",
      "Article too short (" ++ toString (jsWordCount a)
        ++ " words, minimum 800 recommended)", none,
      "Expand the article with more detail, analysis, and practical insights"⟩]
  else []) ++
  (if actionableCount a < 2 then
    [⟨.minor, "Actionability", "Article lacks practical takeaways", none,
      "Add specific implications for care providers, workers, or policymakers"⟩]
  else [])

/-- `americanSpellings`: disfavored spelling (a `\b..\b` word regex) and
its British replacement, in source order. -/
def americanSpellings : List (String × String) :=
  [("organization", "organisation"), ("organize", "organise"),
   ("organizing", "organising"), ("recognize", "recognise"),
   ("recognizing", "recognising"), ("analyze", "analyse"),
   ("analyzing", "analysing"), ("center", "centre"), ("color", "colour"),
   ("favor", "favour"), ("honor", "honour"), ("labor", "labour"),
   ("program", "programme"), ("specialize", "specialise"),
   ("specialized", "specialised"), ("minimize", "minimise"),
   ("maximize", "maximise"), ("prioritize", "prioritise"),
   ("utilize", "utilise"), ("defense", "defence"), ("license", "licence"),
   ("practice", "practise")]

/-- `wrongTerminology`, in source order. -/
def wrongTerminology : List (String × String) :=
  [("nursing home", "care home"), ("caregiver", "carer or care worker"),
   ("local government", "local authority"), ("child protection", "safeguarding"),
   ("adult protection", "safeguarding")]

/-- Accumulated British English penalty: 5 per American-spelling match
plus a flat 10 per terminology entry with any match. -/
def britishPenalty (a : String) : Nat :=
  (americanSpellings.map fun p => 5 * countWord a p.1).sum
    + (wrongTerminology.map fun p => if 0 < countWord a p.1 then 10 else 0).sum

/-- The `britishEnglish` dimension. -/
def britishEnglishScore (a : String) : Nat :=
  (100 - (britishPenalty a : ℤ)).toNat

/-- All British English / UK Terminology issues, in source push order. -/
def britishIssues (a : String) : List QualityIssue :=
  (americanSpellings.filterMap fun p =>
    if 0 < countWord a p.1 then
      some ⟨.minor, "British English",
        "American spelling \"" ++ ((firstWord a p.1).getD "") ++ "\" should be \""
          ++ p.2 ++ "\"", none,
        "Use British spelling: \"" ++ p.2 ++ "\""⟩
    else none) ++
  (wrongTerminology.filterMap fun p =>
    if 0 < countWord a p.1 then
      some ⟨.minor, "UK Terminology",
        "\"" ++ ((firstWord a p.1).getD "") ++ "\" should be \"" ++ p.2
          ++ "\" in UK social care context", none,
        "Use UK social care terminology: \"" ++ p.2 ++ "\""⟩
    else none)

/-- The six dimension scores of an article. -/
def qualityBreakdown (a : String) : QualityBreakdown :=
  ⟨dataQualityScore a, sourceAttributionScore a, formattingScore a,
   depthScore a, actionabilityScore a, britishEnglishScore a⟩

/-- `Math.round` for the non-negative values arising here (half away from
zero equals half up). -/
def jsRound (q : ℚ) : ℤ := ⌊q + 1 / 2⌋

/-- The weighted sum of `reviewArticleQuality`'s `weights` table, in its
insertion order: dataQuality 0.25, sourceAttribution 0.2, formatting 0.15,
depth 0.2, actionability 0.1, britishEnglish 0.1. -/
def codeWeightedSum (b : QualityBreakdown) : ℚ :=
  0.25 * b.dataQuality + 0.2 * b.sourceAttribution + 0.15 * b.formatting
    + 0.2 * b.depth + 0.1 * b.actionability + 0.1 * b.britishEnglish

/-- All issues in source push order (before sorting). -/
def allIssues (a : String) : List QualityIssue :=
  dataQualityIssues a ++ sourceAttributionIssues a ++ formattingIssues a
    ++ depthIssues a ++ actionabilityIssues a ++ britishIssues a

/-- The final `issues.sort` by severity: JS `Array.prototype.sort` is
stable, so sorting by the three-valued severity key is concatenating the
severity groups in original order. -/
def sortIssues (issues : List QualityIssue) : List QualityIssue :=
  issues.filter (fun i => i.severity == .critical)
    ++ issues.filter (fun i => i.severity == .major)
    ++ issues.filter (fun i => i.severity == .minor)

/-- `reviewArticleQuality`. -/
def reviewArticleQuality (a : String) : QualityScore :=
  let b := qualityBreakdown a
  let overall := jsRound (codeWeightedSum b)
  ⟨overall, b, sortIssues (allIssues a), decide (QUALITY_THRESHOLD ≤ overall)⟩

/-- Modelled from the spec's words, for refutation only: the overall score
the specification claims (§4.5) — a plain weighted sum with weights
structural 0.15, factual-density 0.25, attribution 0.20, formatting 0.15,
analytical depth 0.20, register 0.10.  Five of the six names map onto the
code's dimensions (factual-density → dataQuality, attribution →
sourceAttribution, formatting → formatting, analytical depth → depth,
register → britishEnglish); "structural" is paired with the one remaining
code dimension, actionability. -/
def specClaimedOverall (b : QualityBreakdown) : ℚ :=
  0.15 * b.actionability + 0.25 * b.dataQuality + 0.20 * b.sourceAttribution
    + 0.15 * b.formatting + 0.20 * b.depth + 0.10 * b.britishEnglish

end Slackbot

namespace Slackbot

/-! ## Theorems: Thread Memory Store -/

theorem keepCount_eq : keepCount = 40 := by
  have h : ((MAX_MESSAGES : ℚ) * 0.8) = 40 := by
    norm_num [MAX_MESSAGES]
  rw [keepCount, h]
  rfl

/-- Updating the entry for `tid` commutes with lookup. -/
theorem storeLookup_storeUpdate (store : Store) (tid : String)
    (f : ConversationContext → ConversationContext) :
    storeLookup (storeUpdate store tid f) tid = (storeLookup store tid).map f := by
  induction store with
  | nil => rfl
  | cons hd tl ih =>
    obtain ⟨k, v⟩ := hd
    by_cases h : k = tid
    · simp [storeUpdate, storeLookup, h]
    · simp [storeUpdate, storeLookup, h, ih]

/-- On a sequence already longer than the cap, trimming keeps the head and
the `keepCount` most recent entries. -/
theorem trimMessages_eq_of_long (m0 : MessageParam) (tl : List MessageParam)
    (h : MAX_MESSAGES < (m0 :: tl).length) :
    trimMessages (m0 :: tl) = m0 :: (m0 :: tl).drop ((m0 :: tl).length - keepCount) := by
  simp only [trimMessages, if_pos h]

/-- `addMessage` on an existing thread stores the trimmed appended sequence. -/
theorem getMessages_addMessage (store : Store) (tid : String) (r : Role)
    (c : String) (ag : Option AgentRole) (now : Nat) (ctx : ConversationContext)
    (hlook : storeLookup store tid = some ctx) :
    getMessages (addMessage store tid r c ag now) tid
      = trimMessages (ctx.messages ++ [⟨r, c⟩]) := by
  simp only [addMessage, hlook, getMessages, storeLookup_storeUpdate]
  rfl

/-- C1: when an append pushes a thread's message count above the cap
(default 50), the stored sequence becomes the original first message
followed by the `floor(cap × 0.8) = 40` most recent messages of the
appended sequence (a contiguous suffix, hence original relative order),
and the retained length stays within the cap. -/
theorem addMessage_trims (store : Store) (tid : String) (r : Role)
    (c : String) (ag : Option AgentRole) (now : Nat) (ctx : ConversationContext)
    (hlook : storeLookup store tid = some ctx)
    (hlen : MAX_MESSAGES < ctx.messages.length + 1) :
    ∃ m0 rest, ctx.messages = m0 :: rest ∧
      getMessages (addMessage store tid r c ag now) tid
        = m0 :: (ctx.messages ++ [(⟨r, c⟩ : MessageParam)]).drop
            (ctx.messages.length + 1 - keepCount) ∧
      ((ctx.messages ++ [(⟨r, c⟩ : MessageParam)]).drop
          (ctx.messages.length + 1 - keepCount)).length = keepCount ∧
      (getMessages (addMessage store tid r c ag now) tid).length ≤ MAX_MESSAGES := by
  have hL : MAX_MESSAGES ≤ ctx.messages.length := Nat.lt_succ_iff.mp hlen
  have hL50 : 50 ≤ ctx.messages.length := by
    simpa [MAX_MESSAGES] using hL
  obtain ⟨m0, rest, hm⟩ : ∃ m0 rest, ctx.messages = m0 :: rest := by
    cases hmsg : ctx.messages with
    | nil => rw [hmsg] at hL50; simp at hL50
    | cons a l => exact ⟨a, l, rfl⟩
  have happ : ctx.messages ++ [(⟨r, c⟩ : MessageParam)] = m0 :: (rest ++ [⟨r, c⟩]) := by
    rw [hm]; rfl
  have hlong : MAX_MESSAGES < (m0 :: (rest ++ [(⟨r, c⟩ : MessageParam)])).length := by
    have : (m0 :: (rest ++ [(⟨r, c⟩ : MessageParam)])).length
        = ctx.messages.length + 1 := by
      rw [← happ]; simp
    omega
  have hget : getMessages (addMessage store tid r c ag now) tid
      = m0 :: (ctx.messages ++ [(⟨r, c⟩ : MessageParam)]).drop
          (ctx.messages.length + 1 - keepCount) := by
    rw [getMessages_addMessage store tid r c ag now ctx hlook, happ,
      trimMessages_eq_of_long m0 (rest ++ [(⟨r, c⟩ : MessageParam)]) hlong, ← happ]
    have : (ctx.messages ++ [(⟨r, c⟩ : MessageParam)]).length = ctx.messages.length + 1 := by
      simp
    rw [this]
  have hdroplen :
      ((ctx.messages ++ [(⟨r, c⟩ : MessageParam)]).drop
          (ctx.messages.length + 1 - keepCount)).length = keepCount := by
    have hk : keepCount = 40 := keepCount_eq
    simp only [List.length_drop, List.length_append, List.length_cons, List.length_nil]
    omega
  refine ⟨m0, rest, hm, hget, hdroplen, ?_⟩
  rw [hget]
  simp only [List.length_cons, hdroplen]
  rw [keepCount_eq]
  decide

/-- A concrete conversation context sitting exactly at the cap. -/
def fullCtx : ConversationContext :=
  ⟨"T1", "C1", "U1", List.replicate 50 ⟨Role.user, "m"⟩, none, [], 0, 0⟩

/-- A concrete one-thread store for the trimming witness. -/
def fullStore : Store := [("T1", fullCtx)]

/-- Witness for C1 at a concrete store holding a thread with 50 messages. -/
theorem addMessage_trims_witness :
    (storeLookup fullStore "T1" = some fullCtx) ∧
    (MAX_MESSAGES < fullCtx.messages.length + 1) ∧
    (∃ m0 rest, fullCtx.messages = m0 :: rest ∧
      getMessages (addMessage fullStore "T1" Role.user "new" none 9) "T1"
        = m0 :: (fullCtx.messages ++ [(⟨Role.user, "new"⟩ : MessageParam)]).drop
            (fullCtx.messages.length + 1 - keepCount) ∧
      ((fullCtx.messages ++ [(⟨Role.user, "new"⟩ : MessageParam)]).drop
          (fullCtx.messages.length + 1 - keepCount)).length = keepCount ∧
      (getMessages (addMessage fullStore "T1" Role.user "new" none 9) "T1").length
        ≤ MAX_MESSAGES) :=
  ⟨rfl, by decide,
    addMessage_trims fullStore "T1" Role.user "new" none 9 fullCtx rfl (by decide)⟩

/-- C9: `addMessage` on a thread identifier not present in the store is a
no-op: the whole store is returned unchanged. -/
theorem addMessage_absent_noop (store : Store) (tid : String) (r : Role)
    (c : String) (ag : Option AgentRole) (now : Nat)
    (h : storeLookup store tid = none) :
    addMessage store tid r c ag now = store := by
  simp only [addMessage, h]

/-- Witness for C9 on the empty store. -/
theorem addMessage_absent_noop_witness :
    storeLookup [] "T1" = none ∧
      addMessage [] "T1" Role.user "hello" none 7 = [] :=
  ⟨rfl, addMessage_absent_noop [] "T1" Role.user "hello" none 7 rfl⟩

/-! ## Theorems: Intent Classifier -/

/-- `find?` returns the element at the first index whose predicate holds. -/
theorem find?_eq_of_first {α : Type} (l : List α) (p : α → Bool) (i : Nat) (x : α)
    (hx : l[i]? = some x) (hpx : p x = true)
    (hj : ∀ j y, j < i → l[j]? = some y → p y = false) :
    l.find? p = some x := by
  induction l generalizing i with
  | nil => simp at hx
  | cons hd tl ih =>
    cases i with
    | zero =>
      simp only [List.getElem?_cons_zero, Option.some.injEq] at hx
      subst hx
      simp [List.find?, hpx]
    | succ n =>
      have hhd : p hd = false := hj 0 hd (Nat.succ_pos n) (by simp)
      simp only [List.find?, hhd]
      exact ih n (by simpa using hx)
        (fun j y hji hy => hj (j + 1) y (by omega) (by simpa using hy))

/-- C5: an utterance containing a declared trigger term of agent `A` (and
matching no rule set declared earlier) is routed to `A` by the keyword fast
path, for every fallback classifier — the fallback is never consulted, and
ties between rule sets are broken by declaration order. -/
theorem classifyIntent_rule_first (messages : List ChatMessage) (u : String)
    (i : Nat) (A : AgentRole) (kws : List String) (kw : String)
    (hlast : lastUserUtterance messages = some u)
    (hset : keywordSets[i]? = some (A, kws))
    (hkw : kw ∈ kws) (hmatch : jsIncludes (jsToLower u) kw = true)
    (hearlier : ∀ j B kws', j < i → keywordSets[j]? = some (B, kws') →
        matchesKeywords (jsToLower u) kws' = false) :
    ∀ llm, classifyIntent messages llm = A := by
  intro llm
  have hmatchA : matchesKeywords (jsToLower u) kws = true := by
    simp only [matchesKeywords, List.any_eq_true]
    exact ⟨kw, hkw, hmatch⟩
  have hfind : keywordSets.find? (fun p => matchesKeywords (jsToLower u) p.2)
      = some (A, kws) := by
    refine find?_eq_of_first _ _ i (A, kws) hset hmatchA ?_
    intro j y hji hy
    exact hearlier j y.1 y.2 hji (by simpa using hy)
  simp [classifyIntent, hlast, ruleClassify, hfind]

/-- Witness for C5: "Please RESEARCH Acme" contains scout's trigger
`research` and is routed to scout whatever the fallback would say. -/
theorem classifyIntent_rule_first_witness :
    lastUserUtterance [⟨Role.user, .str "Please RESEARCH Acme"⟩]
        = some "Please RESEARCH Acme" ∧
    jsIncludes (jsToLower "Please RESEARCH Acme") "research" = true ∧
    classifyIntent [⟨Role.user, .str "Please RESEARCH Acme"⟩]
        (fun _ => .ok "sage") = .scout :=
  ⟨rfl, by decide,
    classifyIntent_rule_first [⟨Role.user, .str "Please RESEARCH Acme"⟩]
      "Please RESEARCH Acme" 0 .scout
      ["research", "find", "search", "who", "company", "prospect"] "research"
      rfl rfl (by decide) (by decide)
      (fun j B kws' hj hset => absurd hj (by omega))
      (fun _ => .ok "sage")⟩

/-- C6: when the keyword fast path yields nothing, the fallback classifier
either throws or answers a string; a throw or an answer outside the known
agent identifiers yields the default agent `maven`, and the result is a
known agent identifier in every case. -/
theorem classifyWithLLM_safe (u : String) (llm : String → Except String String) :
    (∀ e, llm u = .error e → classifyWithLLM u llm = .maven) ∧
    (∀ s, llm u = .ok s →
        s ∉ (["scout", "sage", "chronicle", "maven"] : List String) →
        classifyWithLLM u llm = .maven) ∧
    classifyWithLLM u llm ∈ ([.scout, .sage, .chronicle, .maven] : List AgentRole) := by
  refine ⟨?_, ?_, ?_⟩
  · intro e he
    simp [classifyWithLLM, he]
  · intro s hs hmem
    have h1 : s ≠ "scout" := fun h => hmem (by simp [h])
    have h2 : s ≠ "sage" := fun h => hmem (by simp [h])
    have h3 : s ≠ "chronicle" := fun h => hmem (by simp [h])
    have h4 : s ≠ "maven" := fun h => hmem (by simp [h])
    simp [classifyWithLLM, hs, parseAgentRole, h1, h2, h3, h4]
  · cases hllm : llm u with
    | error e => simp [classifyWithLLM, hllm]
    | ok s =>
      simp only [classifyWithLLM, hllm, parseAgentRole]
      split_ifs <;> simp

/-- Witness for C6: a throwing fallback and an unknown identifier both give
maven; a valid identifier is accepted. -/
theorem classifyWithLLM_safe_witness :
    classifyWithLLM "hi" (fun _ => .error "boom") = .maven ∧
    classifyWithLLM "hi" (fun _ => .ok "pirate") = .maven ∧
    classifyWithLLM "hi" (fun _ => .ok "sage")
      ∈ ([.scout, .sage, .chronicle, .maven] : List AgentRole) :=
  ⟨(classifyWithLLM_safe "hi" (fun _ => .error "boom")).1 "boom" rfl,
   (classifyWithLLM_safe "hi" (fun _ => .ok "pirate")).2.1 "pirate" rfl (by decide),
   (classifyWithLLM_safe "hi" (fun _ => .ok "sage")).2.2⟩

/-! ## Theorems: Dispatch handoff protocol -/

/-- C4: when the routed agent `A` signals a handoff to `B` and `B` is in
the table, `handle` returns `B`'s response as-is — even when `B`'s response
itself signals a further handoff, that signal is not followed, so a
handoff chain is capped at one redirect and `handle` (a total function)
terminates. -/
theorem handle_handoff_capped (agents : AgentTable) (ctx : AgentContext)
    (llm : String → Except String String) (A : AgentRole) (agentA agentB : Agent)
    (hoA hoB : Handoff)
    (hclass : classifyIntent ctx.messages llm = A)
    (hA : lookupAgent agents A = some agentA)
    (hsig : (agentA ctx).shouldHandoff = some hoA)
    (hB : lookupAgent agents hoA.to = some agentB)
    (_hBsig : (agentB (handoffContext ctx A hoA)).shouldHandoff = some hoB) :
    handle agents ctx llm = some (agentB (handoffContext ctx A hoA)) := by
  simp [handle, hclass, hA, hsig, hB]

/-- C10: when the routed agent's handoff signal names a target missing from
the agent table, `handle` returns the original agent's response unchanged —
no error, no second agent invoked. -/
theorem handle_unknown_handoff_target (agents : AgentTable) (ctx : AgentContext)
    (llm : String → Except String String) (A : AgentRole) (agentA : Agent)
    (hoA : Handoff)
    (hclass : classifyIntent ctx.messages llm = A)
    (hA : lookupAgent agents A = some agentA)
    (hsig : (agentA ctx).shouldHandoff = some hoA)
    (hnone : lookupAgent agents hoA.to = none) :
    handle agents ctx llm = some (agentA ctx) := by
  simp [handle, hclass, hA, hsig, hnone]

/-- Concrete context whose last user message triggers the scout rule. -/
def wCtx : AgentContext :=
  ⟨"U", "T", "C", [⟨Role.user, .str "research Acme"⟩], none, []⟩

/-- A scout agent that always asks to hand off to sage. -/
def agentAlpha : Agent :=
  fun _ => ⟨"alpha", .scout, [], some ⟨.sage, "needs analysis", none⟩⟩

/-- A sage agent that always asks to hand off again (to chronicle). -/
def agentBeta : Agent :=
  fun _ => ⟨"beta", .sage, [], some ⟨.chronicle, "loop", none⟩⟩

/-- A scout agent handing off to an agent missing from the table. -/
def agentGamma : Agent :=
  fun _ => ⟨"gamma", .scout, [], some ⟨.orchestrator, "nope", none⟩⟩

/-- Fallback classifier for the dispatch witnesses (never reached). -/
def wLLM : String → Except String String := fun _ => .error "unused"

/-- Witness for C4: alpha hands to beta, beta signals a further handoff,
`handle` still returns beta's response. -/
theorem handle_handoff_capped_witness :
    classifyIntent wCtx.messages wLLM = .scout ∧
    (agentBeta (handoffContext wCtx .scout ⟨.sage, "needs analysis", none⟩)).shouldHandoff
      = some ⟨.chronicle, "loop", none⟩ ∧
    handle [(.scout, agentAlpha), (.sage, agentBeta)] wCtx wLLM
      = some (agentBeta (handoffContext wCtx .scout ⟨.sage, "needs analysis", none⟩)) :=
  ⟨by decide, rfl,
    handle_handoff_capped [(.scout, agentAlpha), (.sage, agentBeta)] wCtx wLLM
      .scout agentAlpha agentBeta ⟨.sage, "needs analysis", none⟩
      ⟨.chronicle, "loop", none⟩ (by decide) rfl rfl rfl rfl⟩

/-- Witness for C10: gamma hands off to the absent orchestrator entry and
`handle` returns gamma's own response. -/
theorem handle_unknown_handoff_target_witness :
    lookupAgent [(.scout, agentGamma)] .orchestrator = none ∧
    handle [(.scout, agentGamma)] wCtx wLLM = some (agentGamma wCtx) :=
  ⟨rfl,
    handle_unknown_handoff_target [(.scout, agentGamma)] wCtx wLLM
      .scout agentGamma ⟨.orchestrator, "nope", none⟩ (by decide) rfl rfl rfl⟩

/-! ## Theorems: tool-execution loop -/

/-- `executeTools` yields exactly one result per requested call. -/
theorem executeTools_length (tools : ToolMap) (ctx : AgentContext)
    (tc : List ToolUseBlock) :
    (executeTools tools ctx tc).length = tc.length := by
  induction tc with
  | nil => rfl
  | cons hd tl ih =>
    cases h : lookupTool tools hd.name with
    | none => simp [executeTools, h, ih]
    | some tool =>
      cases h2 : tool.execute hd.input ctx <;> simp [executeTools, h, h2, ih]

/-- `executeTools` keeps results in request order: the `j`-th result holds
the `j`-th call's id. -/
theorem executeTools_order (tools : ToolMap) (ctx : AgentContext)
    (tc : List ToolUseBlock) (j : Nat) :
    ((executeTools tools ctx tc)[j]?).map (fun r => r.tool_use_id)
      = (tc[j]?).map (fun t => t.id) := by
  induction tc generalizing j with
  | nil => simp [executeTools]
  | cons hd tl ih =>
    cases h : lookupTool tools hd.name with
    | none =>
      cases j with
      | zero => simp [executeTools, h]
      | succ n => simp [executeTools, h, ih n]
    | some tool =>
      cases h2 : tool.execute hd.input ctx with
      | ok r =>
        cases j with
        | zero => simp [executeTools, h, h2]
        | succ n => simp [executeTools, h, h2, ih n]
      | error e =>
        cases j with
        | zero => simp [executeTools, h, h2]
        | succ n => simp [executeTools, h, h2, ih n]

/-- C3: a throwing capability executor is caught and becomes an error
payload at that call's position, results stay in request order, and the
dispatch loop still completes: with the tool results fed back, the
follow-up completion produces the final reply — the exception never
escapes (`executeTools` and `handleRequest` are total functions). -/
theorem executor_error_contained (tools : ToolMap) (ctx : AgentContext)
    (tc : List ToolUseBlock) (i : Nat) (tci : ToolUseBlock) (tool : Tool) (e : String)
    (htci : tc[i]? = some tci)
    (hfound : lookupTool tools tci.name = some tool)
    (hthrow : tool.execute tci.input ctx = .error e) :
    (executeTools tools ctx tc).length = tc.length ∧
    (∀ j : Nat, ((executeTools tools ctx tc)[j]?).map (fun r => r.tool_use_id)
        = (tc[j]?).map (fun t => t.id)) ∧
    (executeTools tools ctx tc)[i]? = some ⟨tci.id, .err e⟩ ∧
    (∀ role errMsg client content content2,
      client (ctx.messages.map .chat) = .ok content →
      extractToolCalls content = tc →
      client (followUpMessages ctx content (executeTools tools ctx tc)) = .ok content2 →
      handleRequest role errMsg client tools ctx
        = ⟨formatForSlack (extractText content ++ extractText content2), role,
            tc.map (fun t => t.name), none⟩) := by
  refine ⟨executeTools_length tools ctx tc, executeTools_order tools ctx tc, ?_, ?_⟩
  · induction tc generalizing i with
    | nil => simp at htci
    | cons hd tl ih =>
      cases i with
      | zero =>
        simp only [List.getElem?_cons_zero, Option.some.injEq] at htci
        subst htci
        simp [executeTools, hfound, hthrow]
      | succ n =>
        simp only [List.getElem?_cons_succ] at htci
        cases h : lookupTool tools hd.name with
        | none => simpa [executeTools, h] using ih n htci
        | some t =>
          cases h2 : t.execute hd.input ctx <;>
            simpa [executeTools, h, h2] using ih n htci
  · intro role errMsg client content content2 hc1 hext hc2
    have hne : tc ≠ [] := by
      intro h
      rw [h] at htci
      simp at htci
    unfold handleRequest
    rw [hc1]
    simp only [hext]
    rw [if_neg (by simpa [List.isEmpty_iff] using hne)]
    rw [hc2]

/-- Tool whose executor always throws. -/
def boomTool : Tool := ⟨"boom", "always throws", "\x7b\x7d", fun _ _ => .error "kaboom"⟩

/-- Model client for the C3 witness: first proposes one call of `boomTool`,
then completes with final text. -/
def wClient : List OutMessage → Except String (List ContentBlock) := fun msgs =>
  if msgs.length ≤ 1 then .ok [.text "Let me check.", .toolUse ⟨"id1", "boom", "\x7b\x7d"⟩]
  else .ok [.text "Done."]

/-- Witness for C3: the thrown executor error surfaces as an error payload
in position, and the loop returns the completed reply. -/
theorem executor_error_contained_witness :
    (executeTools [("boom", boomTool)] wCtx [⟨"id1", "boom", "\x7b\x7d"⟩])[0]?
      = some ⟨"id1", .err "kaboom"⟩ ∧
    handleRequest .scout "eek" wClient [("boom", boomTool)] wCtx
      = ⟨formatForSlack (extractText [.text "Let me check.", .toolUse ⟨"id1", "boom", "\x7b\x7d"⟩]
            ++ extractText [.text "Done."]), .scout, ["boom"], none⟩ :=
  ⟨(executor_error_contained [("boom", boomTool)] wCtx [⟨"id1", "boom", "\x7b\x7d"⟩]
      0 ⟨"id1", "boom", "\x7b\x7d"⟩ boomTool "kaboom" rfl rfl rfl).2.2.1,
   (executor_error_contained [("boom", boomTool)] wCtx [⟨"id1", "boom", "\x7b\x7d"⟩]
      0 ⟨"id1", "boom", "\x7b\x7d"⟩ boomTool "kaboom" rfl rfl rfl).2.2.2
     .scout "eek" wClient _ _ rfl rfl rfl⟩

/-! ## Theorems: Quality Scoring Engine -/

theorem review_breakdown (a : String) :
    (reviewArticleQuality a).breakdown = qualityBreakdown a := rfl

theorem review_overall (a : String) :
    (reviewArticleQuality a).overall = jsRound (codeWeightedSum (qualityBreakdown a)) := rfl

theorem review_passes (a : String) :
    (reviewArticleQuality a).passesThreshold
      = decide (QUALITY_THRESHOLD ≤ (reviewArticleQuality a).overall) := rfl

theorem review_issues (a : String) :
    (reviewArticleQuality a).issues = sortIssues (allIssues a) := rfl

theorem qb_dataQuality (a : String) :
    (qualityBreakdown a).dataQuality = dataQualityScore a := by
  simp only [qualityBreakdown]

theorem qb_sourceAttribution (a : String) :
    (qualityBreakdown a).sourceAttribution = sourceAttributionScore a := by
  simp only [qualityBreakdown]

theorem qb_formatting (a : String) :
    (qualityBreakdown a).formatting = formattingScore a := by
  simp only [qualityBreakdown]

theorem qb_depth (a : String) :
    (qualityBreakdown a).depth = depthScore a := by
  simp only [qualityBreakdown]

theorem qb_actionability (a : String) :
    (qualityBreakdown a).actionability = actionabilityScore a := by
  simp only [qualityBreakdown]

theorem qb_britishEnglish (a : String) :
    (qualityBreakdown a).britishEnglish = britishEnglishScore a := by
  simp only [qualityBreakdown]

/-- C2 (amended): for every input text the overall score equals the
JS-rounded weighted sum of the six dimension scores, with the weights the
code declares — dataQuality (factual density) 0.25, sourceAttribution
0.20, formatting 0.15, depth (analytical depth) 0.20, actionability 0.10,
britishEnglish (register) 0.10 — and these weights sum to 1.0. -/
theorem overall_eq_weighted_sum (a : String) :
    (reviewArticleQuality a).overall
      = jsRound (0.25 * ((reviewArticleQuality a).breakdown.dataQuality : ℚ)
          + 0.2 * ((reviewArticleQuality a).breakdown.sourceAttribution : ℚ)
          + 0.15 * ((reviewArticleQuality a).breakdown.formatting : ℚ)
          + 0.2 * ((reviewArticleQuality a).breakdown.depth : ℚ)
          + 0.1 * ((reviewArticleQuality a).breakdown.actionability : ℚ)
          + 0.1 * ((reviewArticleQuality a).breakdown.britishEnglish : ℚ)) ∧
    (0.25 + 0.2 + 0.15 + 0.2 + 0.1 + 0.1 : ℚ) = 1 := by
  constructor
  · rfl
  · norm_num

/-- Counterexample to C2 as stated: at the empty article the engine's
overall score is 73 while the spec's claimed weighted sum (weights
structural 0.15, factual-density 0.25, attribution 0.20, formatting 0.15,
analytical depth 0.20, register 0.10) gives 76.5, and those weights sum to
1.05, not 1.0. -/
theorem overall_spec_weights_counterexample :
    ((reviewArticleQuality "").overall : ℚ)
        ≠ specClaimedOverall (reviewArticleQuality "").breakdown ∧
    (0.15 + 0.25 + 0.20 + 0.15 + 0.20 + 0.10 : ℚ) ≠ 1 := by
  constructor
  · have hb : qualityBreakdown "" = ⟨70, 55, 75, 85, 65, 100⟩ := by decide
    have ho : (reviewArticleQuality "").overall = 73 := by
      rw [review_overall, hb]
      norm_num [codeWeightedSum, jsRound]
    rw [review_breakdown, ho, hb]
    norm_num [specClaimedOverall]
  · norm_num

/-- Dimension scores are `Math.max(0, 100 - penalties)`, hence at most 100
whenever the penalty total is non-negative. -/
theorem score_le_100 (p : ℤ) (hp : 0 ≤ p) : (100 - p).toNat ≤ 100 := by omega

set_option maxHeartbeats 1000000 in
/-- C8: each of the six dimension scores is at most 100 (they are naturals,
so also at least 0), the overall weighted score lies within [0, 100], and
the pass flag holds exactly when the overall score reaches the threshold
(default 70). -/
theorem review_bounds (a : String) :
    (reviewArticleQuality a).breakdown.dataQuality ≤ 100 ∧
    (reviewArticleQuality a).breakdown.sourceAttribution ≤ 100 ∧
    (reviewArticleQuality a).breakdown.formatting ≤ 100 ∧
    (reviewArticleQuality a).breakdown.depth ≤ 100 ∧
    (reviewArticleQuality a).breakdown.actionability ≤ 100 ∧
    (reviewArticleQuality a).breakdown.britishEnglish ≤ 100 ∧
    0 ≤ (reviewArticleQuality a).overall ∧
    (reviewArticleQuality a).overall ≤ 100 ∧
    ((reviewArticleQuality a).passesThreshold = true ↔
      QUALITY_THRESHOLD ≤ (reviewArticleQuality a).overall) := by
  have h1 : dataQualityScore a ≤ 100 := by
    unfold dataQualityScore
    omega
  have h2 : sourceAttributionScore a ≤ 100 := by
    unfold sourceAttributionScore
    omega
  have h3 : formattingScore a ≤ 100 := by
    unfold formattingScore
    omega
  have h4 : depthScore a ≤ 100 := by
    unfold depthScore
    omega
  have h5 : actionabilityScore a ≤ 100 := by
    unfold actionabilityScore
    omega
  have h6 : britishEnglishScore a ≤ 100 := by
    unfold britishEnglishScore
    omega
  have d1 : (0:ℚ) ≤ (dataQualityScore a : ℚ) := Nat.cast_nonneg _
  have d2 : (0:ℚ) ≤ (sourceAttributionScore a : ℚ) := Nat.cast_nonneg _
  have d3 : (0:ℚ) ≤ (formattingScore a : ℚ) := Nat.cast_nonneg _
  have d4 : (0:ℚ) ≤ (depthScore a : ℚ) := Nat.cast_nonneg _
  have d5 : (0:ℚ) ≤ (actionabilityScore a : ℚ) := Nat.cast_nonneg _
  have d6 : (0:ℚ) ≤ (britishEnglishScore a : ℚ) := Nat.cast_nonneg _
  have hq0 : 0 ≤ codeWeightedSum (qualityBreakdown a) := by
    simp only [codeWeightedSum, qualityBreakdown]
    linarith
  have hq100 : codeWeightedSum (qualityBreakdown a) ≤ 100 := by
    simp only [codeWeightedSum, qualityBreakdown]
    have c1 : ((dataQualityScore a : ℚ)) ≤ 100 := by exact_mod_cast h1
    have c2 : ((sourceAttributionScore a : ℚ)) ≤ 100 := by exact_mod_cast h2
    have c3 : ((formattingScore a : ℚ)) ≤ 100 := by exact_mod_cast h3
    have c4 : ((depthScore a : ℚ)) ≤ 100 := by exact_mod_cast h4
    have c5 : ((actionabilityScore a : ℚ)) ≤ 100 := by exact_mod_cast h5
    have c6 : ((britishEnglishScore a : ℚ)) ≤ 100 := by exact_mod_cast h6
    linarith
  simp only [review_breakdown, review_overall, review_passes, qb_dataQuality,
    qb_sourceAttribution, qb_formatting, qb_depth, qb_actionability,
    qb_britishEnglish]
  refine ⟨h1, h2, h3, h4, h5, h6, ?_, ?_, ?_⟩
  · unfold jsRound
    rw [Int.le_floor]
    push_cast
    linarith
  · unfold jsRound
    have hle : codeWeightedSum (qualityBreakdown a) + 1 / 2 ≤ (100.5 : ℚ) := by
      linarith
    calc ⌊codeWeightedSum (qualityBreakdown a) + 1 / 2⌋
        ≤ ⌊(100.5 : ℚ)⌋ := Int.floor_le_floor hle
      _ = 100 := by norm_num
  · exact decide_eq_true_iff

/-- C7: a text holding exactly 3 placeholder tokens and no references
section receives at least one critical issue — the missing references
section — and a factual-density (dataQuality) score strictly below 100. -/
theorem placeholder_no_sources_review (a : String)
    (hph : placeholderCount a = 3)
    (hsrc : jsIncludes a "## Sources" = false) :
    (∃ i ∈ (reviewArticleQuality a).issues,
        i.severity = .critical ∧ i.description = "Missing Sources section") ∧
    (reviewArticleQuality a).breakdown.dataQuality < 100 := by
  constructor
  · refine ⟨⟨.critical, "Source Attribution", "Missing Sources section", none,
      "Add a \x27## Sources\x27 section at the end with categorised references"⟩,
      ?_, rfl, rfl⟩
    have hZ : (⟨.critical, "Source Attribution", "Missing Sources section", none,
        "Add a \x27## Sources\x27 section at the end with categorised references"⟩
          : QualityIssue)
        ∈ sourceAttributionIssues a := by
      unfold sourceAttributionIssues
      rw [hsrc]
      simp
    have hall : (⟨.critical, "Source Attribution", "Missing Sources section", none,
        "Add a \x27## Sources\x27 section at the end with categorised references"⟩
          : QualityIssue)
        ∈ allIssues a := by
      unfold allIssues
      simp only [List.mem_append]
      exact Or.inl (Or.inl (Or.inl (Or.inl (Or.inr hZ))))
    rw [review_issues]
    unfold sortIssues
    simp only [List.mem_append]
    exact Or.inl (Or.inl (List.mem_filter.mpr ⟨hall, rfl⟩))
  · rw [review_breakdown]
    show dataQualityScore a < 100
    unfold dataQualityScore dataQualityPenalty
    rw [hph]
    omega

/-- Witness for C7 at the text "TBC TBC TBC" (exactly 3 placeholder
tokens, no references section). -/
theorem placeholder_no_sources_review_witness :
    placeholderCount "TBC TBC TBC" = 3 ∧
    jsIncludes "TBC TBC TBC" "## Sources" = false ∧
    ((∃ i ∈ (reviewArticleQuality "TBC TBC TBC").issues,
        i.severity = .critical ∧ i.description = "Missing Sources section") ∧
      (reviewArticleQuality "TBC TBC TBC").breakdown.dataQuality < 100) :=
  ⟨by decide, by decide,
    placeholder_no_sources_review "TBC TBC TBC" (by decide) (by decide)⟩

end Slackbot
